import Mathlib

/-!
Verification of the chat core of `love-backend-python`.

A shallow embedding of the chat subsystem: the data model
(`app/model/chat_room.py`, `chat_participant.py`, `chat_message.py`),
the CRUD accessors (`app/crud/chat_room_crud.py`, `chat_participant_crud.py`,
`chat_message_crud.py`), the in-memory room registry
(`app/chat/connection_manager.py`), and the REST/WebSocket handlers
(`app/router/api/v1/chat.py`).

Identifiers (UUIDs in the source) are modelled as `Nat`; timestamps as `Nat`
(`Option Nat` where the column is nullable).  Database tables are lists of
rows; the per-process registry is an association list from room id to the
list of subscribed connections (a Python `dict` of `set`s in the source).
-/

abbrev UserId := Nat
abbrev RoomId := Nat
abbrev MsgId := Nat
abbrev ConnId := Nat
abbrev Time := Nat

/-- Row of `chat_rooms` (`app/model/chat_room.py`).  `last_message_at` is a
nullable timestamp, updated on each new message; `created_at` carries the
server default.  The `topic` column is never read by the operations under
study and is omitted. -/
structure ChatRoom where
  id : RoomId
  chat_type : String
  contact_id : Option Nat
  last_message_at : Option Time
  created_at : Time
  deriving Repr, DecidableEq

/-- Row of `chat_participants` (`app/model/chat_participant.py`).  The table
has `UniqueConstraint (room_id, user_id)`, so at most one row exists per
(room, user) pair.  `unread_count` is `nullable=False, default=0`. -/
structure ChatParticipant where
  room_id : RoomId
  user_id : UserId
  unread_count : Nat
  deriving Repr, DecidableEq

/-- Row of `chat_messages` (`app/model/chat_message.py`).  `quote_id` is a
nullable self-reference; `created_at` carries the server default. -/
structure ChatMessage where
  id : MsgId
  room_id : RoomId
  user_id : UserId
  content : String
  quote_id : Option MsgId
  created_at : Time
  deriving Repr, DecidableEq

/-- The relational state the chat endpoints read and write: the three chat
tables plus the set of existing user ids (the `users` table, of which the
chat code only uses existence checks). -/
structure DB where
  rooms : List ChatRoom
  participants : List ChatParticipant
  messages : List ChatMessage
  users : List UserId
  deriving Repr, DecidableEq

/-- Error taxonomy of the routers (`app/core/exceptions.NotFound`,
`HTTPException` 400 / 503 in `app/router/api/v1/chat.py`). -/
inductive ApiError where
  | notFound (what : String)
  | badRequest (code : String)
  | serviceUnavailable (code : String)
  deriving Repr, DecidableEq

-- ---------------------------------------------------------------------------
-- CRUD accessors (app/crud/*.py)
-- ---------------------------------------------------------------------------

namespace chat_participant_crud

/-- `CRUDChatParticipant.get_by_room_and_user`: first row filtered by
`room_id == room_id and user_id == user_id`. -/
def get_by_room_and_user (db : DB) (rid : RoomId) (uid : UserId) :
    Option ChatParticipant :=
  db.participants.find? (fun p => p.room_id == rid && p.user_id == uid)

/-- `CRUDChatParticipant.list_by_room`: all rows of one room. -/
def list_by_room (db : DB) (rid : RoomId) : List ChatParticipant :=
  db.participants.filter (fun p => p.room_id == rid)

/-- `CRUDChatParticipant.list_other_participants`: rows of the room whose
`user_id` differs from `exclude_user_id`. -/
def list_other_participants (db : DB) (rid : RoomId) (excl : UserId) :
    List ChatParticipant :=
  db.participants.filter (fun p => p.room_id == rid && p.user_id != excl)

/-- `CRUDChatParticipant.mark_read`: sets the participant row's
`unread_count` to 0 and commits.  The router passes the row found by
`get_by_room_and_user`; by the table's unique constraint that row is the
only one matching (room, user), so the update is modelled as a map over
matching rows. -/
def mark_read (db : DB) (rid : RoomId) (uid : UserId) : DB :=
  { db with participants := db.participants.map (fun p =>
      if p.room_id == rid && p.user_id == uid then
        { p with unread_count := 0 } else p) }

/-- `CRUDChatParticipant.increment_unread_for_others`: for every participant
of the room except `exclude_user_id`, `unread_count = (unread_count or 0) + 1`
(the column is non-null, so the `or 0` guard is the identity). -/
def increment_unread_for_others (db : DB) (rid : RoomId) (excl : UserId) : DB :=
  { db with participants := db.participants.map (fun p =>
      if p.room_id == rid && p.user_id != excl then
        { p with unread_count := p.unread_count + 1 } else p) }

end chat_participant_crud

namespace chat_message_crud

/-- `CRUDChatMessage.get_by_id`: first message with the given id
(ids are unique primary keys). -/
def get_by_id (db : DB) (mid : MsgId) : Option ChatMessage :=
  db.messages.find? (fun m => m.id == mid)

end chat_message_crud

/-- Insert `a` into a list already sorted by the strict ranking `lt`,
keeping it sorted. -/
def insertRanked (lt : α → α → Bool) (a : α) : List α → List α
  | [] => [a]
  | b :: l => if lt a b then a :: b :: l else b :: insertRanked lt a l

/-- Sort a list by the strict ranking `lt` (insertion sort).  Models the SQL
`ORDER BY`; the relative order of rows tied under `lt` is unspecified in SQL
and irrelevant to the properties proved here. -/
def sortRanked (lt : α → α → Bool) : List α → List α
  | [] => []
  | a :: l => insertRanked lt a (sortRanked lt l)

namespace chat_message_crud

/-- Ranking generated by `order_by(desc(ChatMessage.created_at))`: newest
first. -/
def msgDescLt (a b : ChatMessage) : Bool :=
  b.created_at < a.created_at

/-- `CRUDChatMessage.list_by_room_paginated`: messages of the room, newest
first.  When `before_id` is given the offset is `0` and, when `before_id`
resolves to a message of the same room, rows are restricted to strictly
older `created_at`.  Returns `(items, total)`, `total` counted on the
filtered set before offset/limit.  Callers (`list_messages` in the router)
clamp `page ≥ 1` and `1 ≤ limit ≤ 100` before calling. -/
def list_by_room_paginated (db : DB) (rid : RoomId) (page : Nat) (limit : Nat)
    (before_id : Option MsgId) : List ChatMessage × Nat :=
  let base := db.messages.filter (fun m => m.room_id == rid)
  let base :=
    match before_id with
    | some bid =>
      match get_by_id db bid with
      | some m => if m.room_id == rid
                  then base.filter (fun x => x.created_at < m.created_at)
                  else base
      | none => base
    | none => base
  let total := base.length
  let skip := if before_id.isSome then 0 else (page - 1) * limit
  (((sortRanked msgDescLt base).drop skip).take limit, total)

end chat_message_crud

namespace chat_room_crud

/-- `CRUDChatRoom.get_by_id`: first room with the given id. -/
def get_by_id (db : DB) (rid : RoomId) : Option ChatRoom :=
  db.rooms.find? (fun r => r.id == rid)

/-- Ranking of nullable timestamps under PostgreSQL `ORDER BY t DESC`:
the engine's default places NULL before every non-null value in descending
order (NULLS FIRST), and non-null values largest first. -/
def optTimeDescLt (a b : Option Time) : Bool :=
  match a, b with
  | none, none => false
  | none, some _ => true
  | some _, none => false
  | some x, some y => y < x

/-- Ranking generated by
`order_by(desc(last_message_at), desc(created_at))` on PostgreSQL. -/
def roomDescLt (r s : ChatRoom) : Bool :=
  optTimeDescLt r.last_message_at s.last_message_at ||
    (r.last_message_at == s.last_message_at && s.created_at < r.created_at)

/-- `CRUDChatRoom.list_rooms_for_user`: rooms whose id appears in the
caller's participant rows, optionally filtered by `chat_type`, ordered by
`desc(last_message_at), desc(created_at)` (PostgreSQL semantics), paginated
by `(page - 1) * limit` offset.  Returns `(items, total)`. -/
def list_rooms_for_user (db : DB) (uid : UserId) (chat_type : Option String)
    (page : Nat) (limit : Nat) : List ChatRoom × Nat :=
  let subq := (db.participants.filter (fun p => p.user_id == uid)).map
    (fun p => p.room_id)
  let base := db.rooms.filter (fun r => subq.contains r.id)
  let base :=
    match chat_type with
    | some t => base.filter (fun r => r.chat_type == t)
    | none => base
  let total := base.length
  let skip := (page - 1) * limit
  (((sortRanked roomDescLt base).drop skip).take limit, total)

end chat_room_crud

-- ---------------------------------------------------------------------------
-- Room Registry (app/chat/connection_manager.py)
-- ---------------------------------------------------------------------------

/-- The `ConnectionManager._rooms` dictionary: room id → set of live
connections, modelled as an association list (the Python `dict` keeps keys
unique; the sets are modelled as duplicate-free lists). -/
abbrev Registry := List (RoomId × List ConnId)

namespace ConnectionManager

/-- `self._rooms.get(room_id)`: the subscriber set of a room, when the entry
exists. -/
def lookupRoom (reg : Registry) (rid : RoomId) : Option (List ConnId) :=
  (reg.find? (fun e => e.1 == rid)).map (fun e => e.2)

/-- The subscriber set of a room, empty when no entry exists
(`self._rooms.get(room_id) or []`). -/
def subscribersOf (reg : Registry) (rid : RoomId) : List ConnId :=
  (lookupRoom reg rid).getD []

/-- Python `set.add`: insert the connection if absent. -/
def connInsert (c : ConnId) (l : List ConnId) : List ConnId :=
  if l.contains c then l else c :: l

/-- `ConnectionManager.subscribe`: create the room's set if absent, then add
the connection. -/
def subscribe (reg : Registry) (c : ConnId) (rid : RoomId) : Registry :=
  match lookupRoom reg rid with
  | none => reg ++ [(rid, [c])]
  | some _ => reg.map (fun e => if e.1 == rid then (e.1, connInsert c e.2) else e)

/-- `ConnectionManager.unsubscribe`: if the room has an entry, discard the
connection from its set; if the set becomes empty, delete the room entry.
Absent room: no-op. -/
def unsubscribe (reg : Registry) (c : ConnId) (rid : RoomId) : Registry :=
  match lookupRoom reg rid with
  | none => reg
  | some l =>
    let l' := l.filter (fun x => x != c)
    if l'.isEmpty then reg.filter (fun e => e.1 != rid)
    else reg.map (fun e => if e.1 == rid then (e.1, l') else e)

/-- `ConnectionManager.unsubscribe_all`: bulk unsubscribe, one room at a
time. -/
def unsubscribe_all (reg : Registry) (c : ConnId) (rids : List RoomId) :
    Registry :=
  rids.foldl (fun r rid => unsubscribe r c rid) reg

/-- Is a connection currently in the room's subscriber set? -/
def connSubscribed (reg : Registry) (c : ConnId) (rid : RoomId) : Bool :=
  (subscribersOf reg rid).contains c

/-- `ws is exclude_websocket` guard of the broadcast loop. -/
def notExcluded (exclude : Option ConnId) (c : ConnId) : Bool :=
  match exclude with
  | some x => c != x
  | none => true

/-- `ConnectionManager.broadcast_to_room`: take a snapshot of the room's
subscriber set; attempt one send per connection, skipping
`exclude_websocket`; a send that raises is caught, logged and the connection
collected in `dead`; afterwards every dead connection is discarded from the
room's set and the entry deleted if it became empty.  The outcome of each
send attempt is supplied by the oracle `sendFails`; the function returns the
updated registry and the list of connections the send succeeded for.  It is
a total function: no failure escapes to the caller. -/
def broadcast_to_room (reg : Registry) (rid : RoomId)
    (exclude : Option ConnId) (sendFails : ConnId → Bool) :
    Registry × List ConnId :=
  let sockets := subscribersOf reg rid
  let delivered := sockets.filter (fun c => notExcluded exclude c && !sendFails c)
  let dead := sockets.filter (fun c => notExcluded exclude c && sendFails c)
  let reg' :=
    if dead.isEmpty then reg
    else
      let upd := reg.map (fun e =>
        if e.1 == rid then (e.1, e.2.filter (fun c => !dead.contains c)) else e)
      match lookupRoom upd rid with
      | some l => if l.isEmpty then upd.filter (fun e => e.1 != rid) else upd
      | none => upd
  (reg', delivered)

/-- One operation on the registry, as invoked by the WebSocket handler and
the ingestion path. -/
inductive RegOp where
  | sub (c : ConnId) (rid : RoomId)
  | unsub (c : ConnId) (rid : RoomId)
  | unsubAll (c : ConnId) (rids : List RoomId)
  | bcast (rid : RoomId) (exclude : Option ConnId) (sendFails : ConnId → Bool)

/-- Apply one registry operation (broadcast's delivery list is discarded;
only its state effect matters here). -/
def applyOp (reg : Registry) : RegOp → Registry
  | .sub c rid => subscribe reg c rid
  | .unsub c rid => unsubscribe reg c rid
  | .unsubAll c rids => unsubscribe_all reg c rids
  | .bcast rid exclude sendFails => (broadcast_to_room reg rid exclude sendFails).1

/-- Apply a sequence of registry operations in order. -/
def applyOps (reg : Registry) (ops : List RegOp) : Registry :=
  ops.foldl applyOp reg

/-- Structural invariant of the registry: room entries have pairwise
distinct keys (a Python `dict`) and every entry's subscriber set is
non-empty. -/
def RegistryWF (reg : Registry) : Prop :=
  (reg.map Prod.fst).Nodup ∧ ∀ e ∈ reg, e.2 ≠ []

end ConnectionManager

-- ---------------------------------------------------------------------------
-- REST handlers (app/router/api/v1/chat.py)
-- ---------------------------------------------------------------------------

/-- Python's `str.strip()` with no arguments, as used by
`create_message` (`content = body.content.strip()`): removes leading and
trailing whitespace. -/
def pyStrip (s : String) : String :=
  ⟨((s.data.dropWhile Char.isWhitespace).reverse.dropWhile
    Char.isWhitespace).reverse⟩

/-- Failure injection for the persistence writes of message ingestion:
`createFails` models an error raised while flushing the new `Message` row,
`commitFails` one raised while committing the room-timestamp update and the
unread increments.  Either surfaces as `SQLAlchemyError` in the handler. -/
structure TxFail where
  createFails : Bool
  commitFails : Bool
  deriving Repr, DecidableEq

/-- No persistence failure. -/
def TxFail.none : TxFail := ⟨false, false⟩

/-- Modelled from the spec: `CRUDBase.create_from_dict` (`app/crud/base.py`)
and the session/engine wiring (`app/core/database.py`) are not under `src/`.
Per §4.3 step 4 / §6 of the spec, all writes of message ingestion — the
`Message` insert, the room's `last_message_at` update and the unread
increments for the other participants — are enclosed in one transaction, so
the `try` block of `create_message` is modelled as the atomic application of
the whole change set: on any injected failure nothing is applied
(`db.rollback()` in the handler), otherwise everything is. -/
def runMessageTx (db : DB) (rid : RoomId) (uid : UserId) (content : String)
    (quote_id : Option MsgId) (now : Time) (newId : MsgId) (fail : TxFail) :
    Option (DB × ChatMessage) :=
  if fail.createFails || fail.commitFails then Option.none
  else
    let msg : ChatMessage :=
      { id := newId, room_id := rid, user_id := uid, content := content,
        quote_id := quote_id, created_at := now }
    let db' : DB :=
      { db with
        messages := db.messages ++ [msg],
        rooms := db.rooms.map (fun r =>
          if r.id == rid then { r with last_message_at := some now } else r) }
    some (chat_participant_crud.increment_unread_for_others db' rid uid, msg)

/-- The quote validation of `create_message`: absent `quote_id` passes;
otherwise the referenced message must exist and belong to the target room
(`quoted.room_id == room_id`). -/
def quoteCheck (db : DB) (rid : RoomId) : Option MsgId → Bool
  | Option.none => true
  | some q =>
    match chat_message_crud.get_by_id db q with
    | Option.none => false
    | some quoted => quoted.room_id == rid

/-- `create_message` (POST `/rooms/{room_id}/messages`): participant check
(`NotFound`), room check (`NotFound`), whitespace-trimmed content must be
non-empty (`EMPTY_CONTENT` 400), an optional `quote_id` must resolve to a
message of the same room (`INVALID_QUOTE` 400); then the transactional
write; `SQLAlchemyError` is caught, rolled back and reported as
`SERVICE_ERROR` 503.  `now` models `datetime.now(timezone.utc)` / the
server-default timestamp, `newId` the generated UUID.  Returns the resulting
database state together with the response. -/
def create_message (db : DB) (rid : RoomId) (uid : UserId) (content : String)
    (quote_id : Option MsgId) (now : Time) (newId : MsgId) (fail : TxFail) :
    DB × Except ApiError ChatMessage :=
  match chat_participant_crud.get_by_room_and_user db rid uid with
  | Option.none => (db, .error (.notFound "Room"))
  | some _ =>
    match chat_room_crud.get_by_id db rid with
    | Option.none => (db, .error (.notFound "Room"))
    | some _ =>
      let content := pyStrip content
      if content.isEmpty then (db, .error (.badRequest "EMPTY_CONTENT"))
      else
        if !quoteCheck db rid quote_id then (db, .error (.badRequest "INVALID_QUOTE"))
        else
          match runMessageTx db rid uid content quote_id now newId fail with
          | Option.none => (db, .error (.serviceUnavailable "SERVICE_ERROR"))
          | some (db', msg) => (db', .ok msg)

/-- `list_messages` (GET `/rooms/{room_id}/messages`): clamp `page` and
`limit`, require the caller to be a participant (`NotFound` otherwise, no
state change), reset the caller's unread count (`mark_read`), then return
the paginated page.  Returns the resulting database state and the response
`(items, total)`. -/
def list_messages (db : DB) (rid : RoomId) (uid : UserId) (page : Int)
    (limit : Int) (before_id : Option MsgId) :
    DB × Except ApiError (List ChatMessage × Nat) :=
  let page := if page < 1 then 1 else page
  let limit := if limit < 1 || limit > 100 then 50 else limit
  match chat_participant_crud.get_by_room_and_user db rid uid with
  | Option.none => (db, .error (.notFound "Room"))
  | some _ =>
    let db' := chat_participant_crud.mark_read db rid uid
    (db', .ok (chat_message_crud.list_by_room_paginated db' rid page.toNat
      limit.toNat before_id))

/-- Does the participant set of `rid` consist exactly of `{uid, other}`?
The source builds `{p.user_id for p in participants}` and compares it with
the two-element set. -/
def participantSetIsPair (db : DB) (rid : RoomId) (uid other : UserId) : Bool :=
  let ids := (chat_participant_crud.list_by_room db rid).map
    (fun p => p.user_id)
  ids.all (fun x => x == uid || x == other) &&
    ids.contains uid && ids.contains other

/-- The loop body of `create_or_get_room`'s search: the room exists, is of
`chat_type == "direct"` and its participant user-id set equals
`{uid, other}`. -/
def matchesDirectPair (db : DB) (uid other : UserId) (rid : RoomId) : Bool :=
  match chat_room_crud.get_by_id db rid with
  | Option.none => false
  | some room =>
    room.chat_type == "direct" && participantSetIsPair db rid uid other

/-- The room ids of the caller's participations, in table order
(`my_room_ids` in the source). -/
def myRoomIds (db : DB) (uid : UserId) : List RoomId :=
  (db.participants.filter (fun p => p.user_id == uid)).map (fun p => p.room_id)

/-- The `other_user_id` branch of `create_or_get_room` (POST `/rooms`):
reject `other == caller` (`INVALID_OTHER_USER` 400); require the other user
to exist (`NotFound`); scan the caller's rooms for a direct room whose
participant set is exactly the pair and return its id; otherwise create a
new `Room` (`chat_type = "direct"`) with two `Participant` rows (caller and
other, `unread_count` defaulting to 0).  `newRoomId` models the generated
UUID, `now` the server-default `created_at`.  Returns the resulting database
state and the returned room id. -/
def create_or_get_room_direct (db : DB) (uid other : UserId)
    (newRoomId : RoomId) (now : Time) : DB × Except ApiError RoomId :=
  if other == uid then (db, .error (.badRequest "INVALID_OTHER_USER"))
  else if !db.users.contains other then (db, .error (.notFound "User"))
  else
    match (myRoomIds db uid).find? (matchesDirectPair db uid other) with
    | some rid => (db, .ok rid)
    | Option.none =>
      let room : ChatRoom :=
        { id := newRoomId, chat_type := "direct", contact_id := Option.none,
          last_message_at := Option.none, created_at := now }
      let db' : DB :=
        { db with
          rooms := db.rooms ++ [room],
          participants := db.participants ++
            [⟨newRoomId, uid, 0⟩, ⟨newRoomId, other, 0⟩] }
      (db', .ok newRoomId)

-- ---------------------------------------------------------------------------
-- WebSocket handler (websocket_chat in app/router/api/v1/chat.py)
-- ---------------------------------------------------------------------------

/-- An outbound WebSocket frame of the handler: a structured error reply, or
an event broadcast through the registry. -/
inductive OutFrame where
  | errorFrame (code : String)
  deriving Repr, DecidableEq

/-- The body of `websocket_chat`'s receive loop for one parsed frame
`{action, room_id, typing?}`: missing `room_id` → error reply; the
participant check runs against persistence on every frame; a non-participant
gets a `FORBIDDEN` error reply and nothing changes; otherwise `subscribe` /
`unsubscribe` update the registry and the connection's tracked set, `typing`
broadcasts excluding the sender, and unknown actions get an error reply.
Returns `(registry, tracked subscriptions, replies sent, connection stays
open)`; every branch of the loop body leaves the connection open. -/
def websocket_frame_step (db : DB) (uid : UserId) (conn : ConnId)
    (reg : Registry) (subscribed : List RoomId) (action : String)
    (room_id : Option RoomId) (_typing : Bool) (sendFails : ConnId → Bool) :
    Registry × List RoomId × List OutFrame × Bool :=
  match room_id with
  | Option.none => (reg, subscribed, [.errorFrame "MISSING_ROOM_ID"], true)
  | some rid =>
    match chat_participant_crud.get_by_room_and_user db rid uid with
    | Option.none => (reg, subscribed, [.errorFrame "FORBIDDEN"], true)
    | some _ =>
      if action == "subscribe" then
        (ConnectionManager.subscribe reg conn rid,
         if subscribed.contains rid then subscribed else rid :: subscribed,
         [], true)
      else if action == "unsubscribe" then
        (ConnectionManager.unsubscribe reg conn rid,
         subscribed.filter (fun r => r != rid), [], true)
      else if action == "typing" then
        ((ConnectionManager.broadcast_to_room reg rid (some conn)
            sendFails).1,
         subscribed, [], true)
      else (reg, subscribed, [.errorFrame "UNKNOWN_ACTION"], true)

-- ---------------------------------------------------------------------------
-- Helper lemmas and shared concrete state
-- ---------------------------------------------------------------------------

/-- `find?` commutes with a row update that never changes the fields the
search predicate reads. -/
theorem find?_map_pres {α : Type} (q : α → Bool) (f : α → α)
    (hf : ∀ a, q (f a) = q a) (l : List α) :
    (l.map f).find? q = (l.find? q).map f := by
  rw [List.find?_map]
  have h : q ∘ f = q := funext hf
  rw [h]

/-- A small concrete database used by the witness theorems: users 1, 2 and 3
all participate in direct room 5, which holds message 100 and message 101
(quoting 100); participant unread counts are 0, 4 and 7. -/
def exDB : DB :=
  { rooms := [{ id := 5, chat_type := "direct", contact_id := Option.none,
                last_message_at := some 40, created_at := 10 }],
    participants := [⟨5, 1, 0⟩, ⟨5, 2, 4⟩, ⟨5, 3, 7⟩],
    messages := [{ id := 100, room_id := 5, user_id := 1, content := "hi",
                   quote_id := Option.none, created_at := 30 },
                 { id := 101, room_id := 5, user_id := 2, content := "yo",
                   quote_id := some 100, created_at := 40 }],
    users := [1, 2, 3] }

/-- Does `before_id` resolve to a message of the queried room (the
`msg and msg.room_id == room_id` test of `list_by_room_paginated`)? -/
def cursorValid (db : DB) (rid : RoomId) (bid : MsgId) : Bool :=
  match chat_message_crud.get_by_id db bid with
  | some m => m.room_id == rid
  | Option.none => false

-- ---------------------------------------------------------------------------
-- C10: cursor pagination semantics of list_by_room_paginated
-- ---------------------------------------------------------------------------

/-- C10: in `list_by_room_paginated`, whenever `before_id` is provided the
`page` parameter has no effect (the offset is always 0); and when
`before_id` does not reference a message of the queried room (including a
nonexistent id) the cursor filter is silently not applied — the call
succeeds and returns the newest messages of the room, exactly as the
cursor-less first page would. -/
theorem c10_cursor_page_ignored_and_invalid_cursor_unfiltered :
    (∀ (db : DB) (rid : RoomId) (page page' limit : Nat) (bid : MsgId),
      chat_message_crud.list_by_room_paginated db rid page limit (some bid) =
        chat_message_crud.list_by_room_paginated db rid page' limit (some bid)) ∧
    (∀ (db : DB) (rid : RoomId) (page limit : Nat) (bid : MsgId),
      cursorValid db rid bid = false →
      chat_message_crud.list_by_room_paginated db rid page limit (some bid) =
        chat_message_crud.list_by_room_paginated db rid 1 limit Option.none) := by
  constructor
  · intro db rid page page' limit bid
    rfl
  · intro db rid page limit bid h
    cases hq : chat_message_crud.get_by_id db bid with
    | none => simp [chat_message_crud.list_by_room_paginated, hq]
    | some m =>
      have hm : (m.room_id == rid) = false := by
        simpa [cursorValid, hq] using h
      simp [chat_message_crud.list_by_room_paginated, hq, hm]

/-- Witness for C10 at a concrete input: message id 999 does not exist, so
the cursor is ignored and the call equals the cursor-less first page. -/
theorem c10_witness :
    chat_message_crud.list_by_room_paginated exDB 5 3 10 (some 999) =
      chat_message_crud.list_by_room_paginated exDB 5 1 10 Option.none :=
  c10_cursor_page_ignored_and_invalid_cursor_unfiltered.2 exDB 5 3 10 999
    (by decide)

-- ---------------------------------------------------------------------------
-- C7: subscribe frames from non-participants are rejected without effect
-- ---------------------------------------------------------------------------

/-- C7: a `subscribe` frame for a room whose per-frame persistence check
shows the principal is not a participant is answered with a `FORBIDDEN`
error frame; the registry's subscriber sets and the connection's tracked
subscription set are unchanged and the connection stays open. -/
theorem c7_subscribe_nonparticipant_rejected (db : DB) (uid : UserId)
    (conn : ConnId) (reg : Registry) (subscribed : List RoomId) (rid : RoomId)
    (typing : Bool) (sendFails : ConnId → Bool)
    (h : chat_participant_crud.get_by_room_and_user db rid uid = Option.none) :
    websocket_frame_step db uid conn reg subscribed "subscribe" (some rid)
      typing sendFails =
      (reg, subscribed, [OutFrame.errorFrame "FORBIDDEN"], true) := by
  simp [websocket_frame_step, h]

/-- Witness for C7 at a concrete input: user 9 is not a participant of
room 5 of `exDB`. -/
theorem c7_witness :
    websocket_frame_step exDB 9 1 [(5, [2])] [7] "subscribe" (some 5) false
      (fun _ => false) =
      ([(5, [2])], [7], [OutFrame.errorFrame "FORBIDDEN"], true) :=
  c7_subscribe_nonparticipant_rejected exDB 9 1 [(5, [2])] [7] 5 false
    (fun _ => false) (by decide)

-- ---------------------------------------------------------------------------
-- C4: listing messages resets the caller's unread count
-- ---------------------------------------------------------------------------

/-- `mark_read` turns the caller's participant row, as the accessor sees it,
into the same row with `unread_count = 0`. -/
theorem get_by_room_and_user_mark_read (db : DB) (rid : RoomId)
    (uid : UserId) :
    chat_participant_crud.get_by_room_and_user
        (chat_participant_crud.mark_read db rid uid) rid uid =
      (chat_participant_crud.get_by_room_and_user db rid uid).map
        (fun p => if p.room_id == rid && p.user_id == uid then
          { p with unread_count := 0 } else p) := by
  unfold chat_participant_crud.get_by_room_and_user
    chat_participant_crud.mark_read
  exact find?_map_pres _ _
    (by intro a; by_cases h : (a.room_id == rid && a.user_id == uid) = true <;>
      simp [h]) _

/-- C4: every call by a participant to list the messages of a room (any
page, any limit, with or without a cursor) succeeds and leaves the caller's
`unread_count` for that room at 0, regardless of its prior value; a caller
who is not a participant gets `NotFound` and the state is unchanged. -/
theorem c4_list_messages_resets_unread (db : DB) (rid : RoomId) (uid : UserId)
    (page limit : Int) (before_id : Option MsgId) :
    ((chat_participant_crud.get_by_room_and_user db rid uid).isSome = true →
      (∃ res, (list_messages db rid uid page limit before_id).2 = .ok res) ∧
      (chat_participant_crud.get_by_room_and_user
          (list_messages db rid uid page limit before_id).1 rid uid).map
          (fun p => p.unread_count) = some 0) ∧
    (chat_participant_crud.get_by_room_and_user db rid uid = Option.none →
      list_messages db rid uid page limit before_id =
        (db, .error (.notFound "Room"))) := by
  cases h : chat_participant_crud.get_by_room_and_user db rid uid with
  | none =>
    refine ⟨fun hs => absurd hs (by simp), fun _ => ?_⟩
    simp [list_messages, h]
  | some p =>
    have heq : list_messages db rid uid page limit before_id =
        (chat_participant_crud.mark_read db rid uid,
         .ok (chat_message_crud.list_by_room_paginated
           (chat_participant_crud.mark_read db rid uid) rid
           (if page < 1 then (1 : Int) else page).toNat
           (if limit < 1 || limit > 100 then (50 : Int) else limit).toNat
           before_id)) := by
      simp [list_messages, h]
    refine ⟨fun _ => ⟨⟨_, by rw [heq]⟩, ?_⟩, fun hn => absurd hn (by simp)⟩
    rw [heq]
    rw [show (chat_participant_crud.mark_read db rid uid,
        Except.ok (ε := ApiError) (chat_message_crud.list_by_room_paginated
          (chat_participant_crud.mark_read db rid uid) rid
          (if page < 1 then (1 : Int) else page).toNat
          (if limit < 1 || limit > 100 then (50 : Int) else limit).toNat
          before_id)).1 = chat_participant_crud.mark_read db rid uid from rfl]
    rw [get_by_room_and_user_mark_read, h]
    have hp : (fun x : ChatParticipant =>
        x.room_id == rid && x.user_id == uid) p = true :=
      List.find?_some (a := p) h
    simp only at hp
    obtain ⟨h1, h2⟩ : p.room_id = rid ∧ p.user_id = uid := by simpa using hp
    simp [h1, h2]

/-- Witness for C4 at a concrete input: user 3 (prior unread count 7) lists
room 5 of `exDB`; the call succeeds and the unread count is reset to 0. -/
theorem c4_witness :
    (∃ res, (list_messages exDB 5 3 2 10 Option.none).2 = .ok res) ∧
    (chat_participant_crud.get_by_room_and_user
        (list_messages exDB 5 3 2 10 Option.none).1 5 3).map
        (fun p => p.unread_count) = some 0 :=
  (c4_list_messages_resets_unread exDB 5 3 2 10 Option.none).1 (by decide)

-- ---------------------------------------------------------------------------
-- C3 / C1 / C8: message ingestion
-- ---------------------------------------------------------------------------

/-- Inversion of a successful `create_message`: the quote validation passed,
the returned message is the one built from the request, and the resulting
state applies the message insert, the room-timestamp update and the unread
increments to the input state. -/
theorem create_message_ok (db : DB) (rid : RoomId) (uid : UserId)
    (content : String) (quote_id : Option MsgId) (now : Time) (newId : MsgId)
    (fail : TxFail) (db' : DB) (msg : ChatMessage)
    (h : create_message db rid uid content quote_id now newId fail =
      (db', .ok msg)) :
    quoteCheck db rid quote_id = true ∧
    msg = { id := newId, room_id := rid, user_id := uid,
            content := pyStrip content, quote_id := quote_id,
            created_at := now } ∧
    db' = chat_participant_crud.increment_unread_for_others
      { db with
        messages := db.messages ++
          [{ id := newId, room_id := rid, user_id := uid,
             content := pyStrip content, quote_id := quote_id,
             created_at := now }],
        rooms := db.rooms.map (fun r =>
          if r.id == rid then { r with last_message_at := some now } else r) }
      rid uid := by
  cases hpart : chat_participant_crud.get_by_room_and_user db rid uid with
  | none => simp [create_message, hpart] at h
  | some part =>
    cases hroom : chat_room_crud.get_by_id db rid with
    | none => simp [create_message, hpart, hroom] at h
    | some room =>
      cases hc : (pyStrip content).isEmpty with
      | true => simp [create_message, hpart, hroom, hc] at h
      | false =>
        cases hq : quoteCheck db rid quote_id with
        | false => simp [create_message, hpart, hroom, hc, hq] at h
        | true =>
          cases hf : (fail.createFails || fail.commitFails) with
          | true =>
            simp [create_message, runMessageTx, hpart, hroom, hc, hq, hf] at h
          | false =>
            simp only [create_message, runMessageTx, hpart, hroom, hc, hq, hf,
              Bool.not_true, Bool.false_eq_true, if_false, Prod.mk.injEq] at h
            obtain ⟨h1, h2⟩ := h
            injection h2 with h2
            exact ⟨rfl, h2.symm, h1.symm⟩

/-- Effect of `increment_unread_for_others` on the unread count seen through
the room+user accessor: participants of the room other than the excluded
user gain exactly 1; the excluded user's row and rows of other rooms are
unchanged; no row appears or disappears. -/
theorem unread_after_increment (db : DB) (rid : RoomId) (excl : UserId)
    (s : RoomId) (v : UserId) :
    (chat_participant_crud.get_by_room_and_user
        (chat_participant_crud.increment_unread_for_others db rid excl)
        s v).map (fun p => p.unread_count) =
      (chat_participant_crud.get_by_room_and_user db s v).map
        (fun p => if s = rid ∧ v ≠ excl then p.unread_count + 1
                  else p.unread_count) := by
  unfold chat_participant_crud.get_by_room_and_user
    chat_participant_crud.increment_unread_for_others
  rw [find?_map_pres (fun x => x.room_id == s && x.user_id == v) _
    (by intro a
        by_cases hcond : (a.room_id == rid && a.user_id != excl) = true <;>
          simp [hcond]) db.participants]
  cases hf : List.find? (fun x => x.room_id == s && x.user_id == v)
      db.participants with
  | none => rfl
  | some p0 =>
    obtain ⟨h1, h2⟩ : p0.room_id = s ∧ p0.user_id = v := by
      simpa using List.find?_some (a := p0) hf
    subst h1; subst h2
    by_cases hs : p0.room_id = rid <;> by_cases hv : p0.user_id = excl <;>
      simp [hs, hv]

/-- C3: on every successful message creation, every participant of the room
except the author has `unread_count` incremented by exactly 1, while the
author's row and the rows of all other rooms are unchanged (observed through
the room+user accessor for every (room, user) pair). -/
theorem c3_unread_incremented_for_others_only (db : DB) (rid : RoomId)
    (uid : UserId) (content : String) (quote_id : Option MsgId) (now : Time)
    (newId : MsgId) (fail : TxFail) (db' : DB) (msg : ChatMessage)
    (h : create_message db rid uid content quote_id now newId fail =
      (db', .ok msg)) :
    ∀ (s : RoomId) (v : UserId),
      (chat_participant_crud.get_by_room_and_user db' s v).map
          (fun p => p.unread_count) =
        (chat_participant_crud.get_by_room_and_user db s v).map
          (fun p => if s = rid ∧ v ≠ uid then p.unread_count + 1
                    else p.unread_count) := by
  obtain ⟨-, -, hdb⟩ := create_message_ok db rid uid content quote_id now
    newId fail db' msg h
  subst hdb
  intro s v
  exact unread_after_increment _ rid uid s v

/-- Witness for C3 at a concrete input: user 1 posts in room 5 of `exDB`
(participants 1, 2, 3 with unread counts 0, 4, 7); user 2's count becomes
4 + 1 observed through the accessor. -/
theorem c3_witness :
    (chat_participant_crud.get_by_room_and_user
        (create_message exDB 5 1 "hello" Option.none 50 200 TxFail.none).1
        5 2).map (fun p => p.unread_count) =
      (chat_participant_crud.get_by_room_and_user exDB 5 2).map
        (fun p => if (5 : RoomId) = 5 ∧ (2 : UserId) ≠ 1 then
          p.unread_count + 1 else p.unread_count) :=
  c3_unread_incremented_for_others_only exDB 5 1 "hello" Option.none 50 200
    TxFail.none
    (create_message exDB 5 1 "hello" Option.none 50 200 TxFail.none).1
    { id := 200, room_id := 5, user_id := 1, content := "hello",
      quote_id := Option.none, created_at := 50 }
    rfl 5 2

/-- C1: if a persistence failure occurs inside the message-ingestion
transaction (after all validations passed), the whole transaction is rolled
back — the returned state is exactly the input state, so no message row, no
timestamp change and no unread increment is observable — and the caller
receives the service-unavailable error. -/
theorem c1_ingestion_rollback_all_or_nothing (db : DB) (rid : RoomId)
    (uid : UserId) (content : String) (quote_id : Option MsgId) (now : Time)
    (newId : MsgId) (fail : TxFail)
    (hpart :
      (chat_participant_crud.get_by_room_and_user db rid uid).isSome = true)
    (hroom : (chat_room_crud.get_by_id db rid).isSome = true)
    (hcont : (pyStrip content).isEmpty = false)
    (hquote : quoteCheck db rid quote_id = true)
    (hfail : (fail.createFails || fail.commitFails) = true) :
    create_message db rid uid content quote_id now newId fail =
      (db, .error (.serviceUnavailable "SERVICE_ERROR")) := by
  obtain ⟨part, hp⟩ := Option.isSome_iff_exists.mp hpart
  obtain ⟨room, hr⟩ := Option.isSome_iff_exists.mp hroom
  simp [create_message, runMessageTx, hp, hr, hcont, hquote, hfail]

/-- Witness for C1 at a concrete input: with a failure injected at the
message insert, posting in room 5 of `exDB` returns the untouched state and
the 503-class error. -/
theorem c1_witness :
    create_message exDB 5 1 "hello" Option.none 50 200 ⟨true, false⟩ =
      (exDB, .error (.serviceUnavailable "SERVICE_ERROR")) :=
  c1_ingestion_rollback_all_or_nothing exDB 5 1 "hello" Option.none 50 200
    ⟨true, false⟩ (by decide) (by decide) (by decide) (by decide) (by decide)

/-- Room-consistency invariant of quotes, as a decidable check: every
persisted message with `quote_id` set references an existing message of the
same room. -/
def quoteInvariantB (db : DB) : Bool :=
  db.messages.all (fun m =>
    match m.quote_id with
    | some q =>
      match chat_message_crud.get_by_id db q with
      | some m' => m'.room_id == m.room_id
      | Option.none => false
    | Option.none => true)

/-- C8: a message-creation request whose `quote_id` does not resolve to a
message of the target room (including a nonexistent id) fails with the
`INVALID_QUOTE` validation error and persists nothing; consequently message
creation preserves the invariant that every persisted message with
`quote_id` set quotes a message of the same room. -/
theorem c8_cross_room_quote_rejected_and_invariant_preserved (db : DB)
    (rid : RoomId) (uid : UserId) (content : String) (now : Time)
    (newId : MsgId) (fail : TxFail) :
    (∀ q : MsgId,
      (chat_participant_crud.get_by_room_and_user db rid uid).isSome = true →
      (chat_room_crud.get_by_id db rid).isSome = true →
      (pyStrip content).isEmpty = false →
      quoteCheck db rid (some q) = false →
      create_message db rid uid content (some q) now newId fail =
        (db, .error (.badRequest "INVALID_QUOTE"))) ∧
    (∀ (quote_id : Option MsgId) (db' : DB) (msg : ChatMessage),
      quoteInvariantB db = true →
      create_message db rid uid content quote_id now newId fail =
        (db', .ok msg) →
      quoteInvariantB db' = true) := by
  constructor
  · intro q hpart hroom hcont hquote
    obtain ⟨part, hp⟩ := Option.isSome_iff_exists.mp hpart
    obtain ⟨room, hr⟩ := Option.isSome_iff_exists.mp hroom
    simp [create_message, hp, hr, hcont, hquote]
  · intro quote_id db' msg hinv h
    obtain ⟨hqc, hmsg, hdb⟩ := create_message_ok db rid uid content quote_id
      now newId fail db' msg h
    subst hdb
    have hlift : ∀ (q : MsgId) (m' : ChatMessage),
        chat_message_crud.get_by_id db q = some m' →
        List.find? (fun m => m.id == q)
          (db.messages ++
            [{ id := newId, room_id := rid, user_id := uid,
               content := pyStrip content, quote_id := quote_id,
               created_at := now }]) = some m' := by
      intro q m' hm
      rw [List.find?_append,
        show List.find? (fun m => m.id == q) db.messages = some m' from hm]
      rfl
    simp only [quoteInvariantB, chat_message_crud.get_by_id,
      chat_participant_crud.increment_unread_for_others,
      List.all_eq_true] at hinv ⊢
    intro x hx
    rcases List.mem_append.mp hx with hx' | hx'
    · have hold := hinv x hx'
      cases hquo : x.quote_id with
      | none => simp [hquo]
      | some q =>
        rw [hquo] at hold
        have hold' : (match List.find? (fun m => m.id == q) db.messages with
            | some m' => m'.room_id == x.room_id
            | Option.none => false) = true := hold
        cases hg : chat_message_crud.get_by_id db q with
        | none =>
          rw [show List.find? (fun m => m.id == q) db.messages =
            Option.none from hg] at hold'
          exact absurd hold' (by simp)
        | some m' =>
          rw [show List.find? (fun m => m.id == q) db.messages =
            some m' from hg] at hold'
          simp only [hlift q m' hg]
          exact hold'
    · have hxeq := List.mem_singleton.mp hx'
      subst hxeq
      cases hquo : quote_id with
      | none => simp [hquo]
      | some q0 =>
        rw [hquo] at hqc
        simp only [quoteCheck] at hqc
        cases hg : chat_message_crud.get_by_id db q0 with
        | none => rw [hg] at hqc; exact absurd hqc (by simp)
        | some quoted =>
          rw [hg] at hqc
          rw [hquo] at hlift
          simp only [hlift q0 quoted hg]
          exact hqc

/-- Witness for C8 at a concrete input: message id 999 does not exist, so
quoting it in room 5 of `exDB` is rejected with `INVALID_QUOTE` and the
state is returned untouched. -/
theorem c8_witness :
    create_message exDB 5 1 "hello" (some 999) 50 200 TxFail.none =
      (exDB, .error (.badRequest "INVALID_QUOTE")) :=
  (c8_cross_room_quote_rejected_and_invariant_preserved exDB 5 1 "hello" 50
    200 TxFail.none).1 999 (by decide) (by decide) (by decide) (by decide)

-- ---------------------------------------------------------------------------
-- C2: room-list ordering and PostgreSQL null sorting
-- ---------------------------------------------------------------------------

/-- Failing input for the room-ordering claim: user 1 participates in room
10, which has no messages (`last_message_at` null, created at 5), and in
room 20, which has activity (`last_message_at = 50`, created at 1). -/
def dbC2 : DB :=
  { rooms := [{ id := 10, chat_type := "direct", contact_id := Option.none,
                last_message_at := Option.none, created_at := 5 },
              { id := 20, chat_type := "direct", contact_id := Option.none,
                last_message_at := some 50, created_at := 1 }],
    participants := [⟨10, 1, 0⟩, ⟨20, 1, 0⟩],
    messages := [{ id := 300, room_id := 20, user_id := 1, content := "hi",
                   quote_id := Option.none, created_at := 50 }],
    users := [1] }

/-- C2 evaluation at the failing input: `list_rooms_for_user` emits
`ORDER BY last_message_at DESC, created_at DESC`, and PostgreSQL's default
for `DESC` is NULLS FIRST, so room 10 — the room with no messages — is
returned BEFORE room 20, which has activity.  The spec (and the code's own
inline comment, which asserts "nulls last in PostgreSQL") require the null
room to sort last, i.e. the order [20, 10]. -/
theorem c2_nulls_first_on_failing_input :
    ((chat_room_crud.list_rooms_for_user dbC2 1 Option.none 1 20).1.map
        (fun r => r.id) = [10, 20]) ∧
    dbC2.rooms.map (fun r => (r.id, r.last_message_at)) =
      [(10, Option.none), (20, some 50)] := by
  constructor <;> rfl

-- ---------------------------------------------------------------------------
-- C5: broadcast delivers to all non-failing subscribers and evicts failures
-- ---------------------------------------------------------------------------

/-- Looking a room up after updating every entry of that room's key leaves
other keys untouched and applies the update to the room's subscriber
list. -/
theorem lookupRoom_map_update (reg : Registry) (rid : RoomId)
    (g : List ConnId → List ConnId) :
    ConnectionManager.lookupRoom (reg.map (fun e =>
      if e.1 == rid then (e.1, g e.2) else e)) rid =
      (ConnectionManager.lookupRoom reg rid).map g := by
  unfold ConnectionManager.lookupRoom
  rw [find?_map_pres (fun e => e.1 == rid) _
    (by intro a; by_cases hm : (a.1 == rid) = true <;> simp [hm]) reg]
  cases hf : List.find? (fun e => e.1 == rid) reg with
  | none => rfl
  | some e0 =>
    have he : e0.1 = rid := by
      simpa using List.find?_some (a := e0) hf
    simp [he]

/-- Looking a room up after deleting its entry yields nothing. -/
theorem lookupRoom_filter_out (reg : Registry) (rid : RoomId) :
    ConnectionManager.lookupRoom (reg.filter (fun e => e.1 != rid)) rid =
      Option.none := by
  unfold ConnectionManager.lookupRoom
  rw [List.find?_eq_none.mpr]
  · rfl
  · intro x hx
    simpa using (List.mem_filter.mp hx).2

/-- C5: a broadcast to a room attempts one send per subscribed connection,
skipping the excluded one; every non-excluded connection whose send
succeeds is delivered to — a failure on one connection never prevents
delivery to another — and every non-excluded connection whose send fails is
evicted from the room's subscriber set.  The delivered list contains only
non-excluded, non-failing subscribers, and the operation is a total
function: no send failure reaches the caller. -/
theorem c5_broadcast_delivery_and_eviction (reg : Registry) (rid : RoomId)
    (exclude : Option ConnId) (sendFails : ConnId → Bool) :
    (∀ c ∈ ConnectionManager.subscribersOf reg rid,
      ConnectionManager.notExcluded exclude c = true → sendFails c = false →
      c ∈ (ConnectionManager.broadcast_to_room reg rid exclude
        sendFails).2) ∧
    (∀ c ∈ (ConnectionManager.broadcast_to_room reg rid exclude sendFails).2,
      c ∈ ConnectionManager.subscribersOf reg rid ∧
      ConnectionManager.notExcluded exclude c = true ∧ sendFails c = false) ∧
    (∀ c ∈ ConnectionManager.subscribersOf reg rid,
      ConnectionManager.notExcluded exclude c = true → sendFails c = true →
      c ∉ ConnectionManager.subscribersOf
        (ConnectionManager.broadcast_to_room reg rid exclude sendFails).1
        rid) := by
  refine ⟨?_, ?_, ?_⟩
  · intro c hc hne hnf
    simp only [ConnectionManager.broadcast_to_room]
    exact List.mem_filter.mpr ⟨hc, by simp [hne, hnf]⟩
  · intro c hc
    simp only [ConnectionManager.broadcast_to_room] at hc
    obtain ⟨h1, h2⟩ := List.mem_filter.mp hc
    have h34 : ConnectionManager.notExcluded exclude c = true ∧
        (!sendFails c) = true := by simpa using h2
    exact ⟨h1, h34.1, by simpa using h34.2⟩
  · intro c hc hne hf
    have hcdead : c ∈ (ConnectionManager.subscribersOf reg rid).filter
        (fun x => ConnectionManager.notExcluded exclude x && sendFails x) :=
      List.mem_filter.mpr ⟨hc, by simp [hne, hf]⟩
    have hdead_ne : ((ConnectionManager.subscribersOf reg rid).filter
        (fun x => ConnectionManager.notExcluded exclude x &&
          sendFails x)).isEmpty = false := by
      rw [List.isEmpty_eq_false]
      intro hnil
      rw [hnil] at hcdead
      exact absurd hcdead (by simp)
    cases hlook : ConnectionManager.lookupRoom reg rid with
    | none =>
      refine absurd hc ?_
      simp [ConnectionManager.subscribersOf, hlook]
    | some l =>
      simp only [ConnectionManager.broadcast_to_room, hdead_ne,
        Bool.false_eq_true, if_false]
      rw [lookupRoom_map_update reg rid (fun conns => conns.filter (fun x =>
        !((ConnectionManager.subscribersOf reg rid).filter
          (fun y => ConnectionManager.notExcluded exclude y &&
            sendFails y)).contains x)), hlook]
      simp only [Option.map_some']
      cases hemp : (l.filter (fun x =>
          !((ConnectionManager.subscribersOf reg rid).filter
            (fun y => ConnectionManager.notExcluded exclude y &&
              sendFails y)).contains x)).isEmpty with
      | true =>
        simp [ConnectionManager.subscribersOf, lookupRoom_filter_out]
      | false =>
        simp only [Bool.false_eq_true, if_false]
        rw [show ∀ X : Registry, ConnectionManager.subscribersOf X rid =
          (ConnectionManager.lookupRoom X rid).getD [] from fun X => rfl]
        rw [lookupRoom_map_update reg rid (fun conns => conns.filter (fun x =>
          !((ConnectionManager.subscribersOf reg rid).filter
            (fun y => ConnectionManager.notExcluded exclude y &&
              sendFails y)).contains x)), hlook]
        simp only [Option.map_some', Option.getD_some]
        intro hmem
        have hnotin := (List.mem_filter.mp hmem).2
        have hin : ((ConnectionManager.subscribersOf reg rid).filter
            (fun y => ConnectionManager.notExcluded exclude y &&
              sendFails y)).contains c = true :=
          List.elem_eq_true_of_mem hcdead
        rw [hin] at hnotin
        exact absurd hnotin (by simp)

/-- Witness for C5 at a concrete input: room 5 has subscribers 1, 2, 3;
connection 1 is excluded, the send to 3 fails; 2 receives the event and 3 is
evicted. -/
theorem c5_witness :
    2 ∈ (ConnectionManager.broadcast_to_room [(5, [1, 2, 3])] 5 (some 1)
      (fun c => c == 3)).2 ∧
    3 ∉ ConnectionManager.subscribersOf
      (ConnectionManager.broadcast_to_room [(5, [1, 2, 3])] 5 (some 1)
        (fun c => c == 3)).1 5 :=
  ⟨(c5_broadcast_delivery_and_eviction [(5, [1, 2, 3])] 5 (some 1)
      (fun c => c == 3)).1 2 (by decide) (by decide) (by decide),
   (c5_broadcast_delivery_and_eviction [(5, [1, 2, 3])] 5 (some 1)
      (fun c => c == 3)).2.2 3 (by decide) (by decide) (by decide)⟩

-- ---------------------------------------------------------------------------
-- C9: registry invariant — every tracked room has a non-empty subscriber set
-- ---------------------------------------------------------------------------

/-- Adding a connection to a set never produces the empty set. -/
theorem connInsert_ne_nil (c : ConnId) (l : List ConnId) :
    ConnectionManager.connInsert c l ≠ [] := by
  unfold ConnectionManager.connInsert
  by_cases h : l.contains c = true
  · rw [if_pos h]
    intro hnil
    rw [hnil] at h
    simp at h
  · rw [if_neg h]
    simp

/-- A per-entry update that keeps the key leaves the key list unchanged. -/
theorem map_fst_update (reg : Registry)
    (f : RoomId × List ConnId → RoomId × List ConnId)
    (hf : ∀ e, (f e).1 = e.1) :
    (reg.map f).map Prod.fst = reg.map Prod.fst := by
  rw [List.map_map]
  exact List.map_congr_left (fun a _ => hf a)

/-- A room absent from the lookup has its key in no entry. -/
theorem lookupRoom_none_key_absent (reg : Registry) (rid : RoomId)
    (h : ConnectionManager.lookupRoom reg rid = Option.none) :
    ∀ e ∈ reg, (e.1 == rid) = false := by
  intro e he
  unfold ConnectionManager.lookupRoom at h
  rw [Option.map_eq_none'] at h
  have := List.find?_eq_none.mp h e he
  simpa using this

/-- `subscribe` preserves the registry's structural invariant. -/
theorem wf_subscribe (reg : Registry) (c : ConnId) (rid : RoomId)
    (h : ConnectionManager.RegistryWF reg) :
    ConnectionManager.RegistryWF (ConnectionManager.subscribe reg c rid) := by
  unfold ConnectionManager.subscribe
  cases hl : ConnectionManager.lookupRoom reg rid with
  | none =>
    constructor
    · rw [List.map_append]
      refine List.Nodup.append h.1 (by simp) ?_
      intro a ha hb
      simp only [List.map_cons, List.map_nil, List.mem_singleton] at hb
      obtain ⟨e, he, hfst⟩ := List.mem_map.mp ha
      have hkey := lookupRoom_none_key_absent reg rid hl e he
      rw [hfst, hb] at hkey
      simp at hkey
    · intro e he
      rcases List.mem_append.mp he with he' | he'
      · exact h.2 e he'
      · rw [List.mem_singleton.mp he']
        simp
  | some l =>
    constructor
    · rw [map_fst_update reg _ (by
        intro e
        by_cases hm : (e.1 == rid) = true <;> simp [hm])]
      exact h.1
    · intro e he
      obtain ⟨a, ha, hfa⟩ := List.mem_map.mp he
      by_cases hm : (a.1 == rid) = true
      · rw [if_pos hm] at hfa
        rw [← hfa]
        exact connInsert_ne_nil c a.2
      · rw [if_neg hm] at hfa
        rw [← hfa]
        exact h.2 a ha

/-- `unsubscribe` preserves the registry's structural invariant. -/
theorem wf_unsubscribe (reg : Registry) (c : ConnId) (rid : RoomId)
    (h : ConnectionManager.RegistryWF reg) :
    ConnectionManager.RegistryWF (ConnectionManager.unsubscribe reg c rid)
    := by
  unfold ConnectionManager.unsubscribe
  cases hl : ConnectionManager.lookupRoom reg rid with
  | none => exact h
  | some l =>
    show ConnectionManager.RegistryWF
      (if (l.filter (fun x => x != c)).isEmpty = true then
        reg.filter (fun e => e.1 != rid)
      else reg.map (fun e => if e.1 == rid then
        (e.1, l.filter (fun x => x != c)) else e))
    by_cases hemp : (l.filter (fun x => x != c)).isEmpty = true
    · rw [if_pos hemp]
      constructor
      · exact List.Nodup.sublist
          (List.Sublist.map Prod.fst (List.filter_sublist reg)) h.1
      · intro e he
        exact h.2 e (List.mem_filter.mp he).1
    · rw [if_neg hemp]
      constructor
      · rw [map_fst_update reg _ (by
          intro e
          by_cases hm : (e.1 == rid) = true <;> simp [hm])]
        exact h.1
      · intro e he
        obtain ⟨a, ha, hfa⟩ := List.mem_map.mp he
        by_cases hm : (a.1 == rid) = true
        · rw [if_pos hm] at hfa
          rw [← hfa]
          intro hnil
          rw [show (a.1, l.filter (fun x => x != c)).2 =
            l.filter (fun x => x != c) from rfl] at hnil
          exact hemp (by rw [hnil]; rfl)
        · rw [if_neg hm] at hfa
          rw [← hfa]
          exact h.2 a ha

/-- The state effect of `broadcast_to_room` preserves the registry's
structural invariant. -/
theorem wf_broadcast (reg : Registry) (rid : RoomId) (exclude : Option ConnId)
    (sendFails : ConnId → Bool) (h : ConnectionManager.RegistryWF reg) :
    ConnectionManager.RegistryWF
      (ConnectionManager.broadcast_to_room reg rid exclude sendFails).1 := by
  show ConnectionManager.RegistryWF
    (if ((ConnectionManager.subscribersOf reg rid).filter
        (fun c => ConnectionManager.notExcluded exclude c &&
          sendFails c)).isEmpty = true then reg
     else
       match ConnectionManager.lookupRoom (reg.map (fun e =>
          if e.1 == rid then
            (e.1, e.2.filter (fun c =>
              !((ConnectionManager.subscribersOf reg rid).filter
                (fun c => ConnectionManager.notExcluded exclude c &&
                  sendFails c)).contains c)) else e)) rid with
       | some l => if l.isEmpty then
            (reg.map (fun e =>
              if e.1 == rid then
                (e.1, e.2.filter (fun c =>
                  !((ConnectionManager.subscribersOf reg rid).filter
                    (fun c => ConnectionManager.notExcluded exclude c &&
                      sendFails c)).contains c)) else e)).filter
              (fun e => e.1 != rid)
          else reg.map (fun e =>
            if e.1 == rid then
              (e.1, e.2.filter (fun c =>
                !((ConnectionManager.subscribersOf reg rid).filter
                  (fun c => ConnectionManager.notExcluded exclude c &&
                    sendFails c)).contains c)) else e)
       | none => reg.map (fun e =>
          if e.1 == rid then
            (e.1, e.2.filter (fun c =>
              !((ConnectionManager.subscribersOf reg rid).filter
                (fun c => ConnectionManager.notExcluded exclude c &&
                  sendFails c)).contains c)) else e))
  by_cases hdead : ((ConnectionManager.subscribersOf reg rid).filter
      (fun c => ConnectionManager.notExcluded exclude c &&
        sendFails c)).isEmpty = true
  · rw [if_pos hdead]
    exact h
  · rw [if_neg hdead]
    have hfst : ∀ e : RoomId × List ConnId,
        ((if e.1 == rid then
          (e.1, e.2.filter (fun c =>
            !((ConnectionManager.subscribersOf reg rid).filter
              (fun c => ConnectionManager.notExcluded exclude c &&
                sendFails c)).contains c)) else e)).1 = e.1 := by
      intro e
      by_cases hm : (e.1 == rid) = true <;> simp [hm]
    have hnodup : (List.map Prod.fst (reg.map (fun e =>
        if e.1 == rid then
          (e.1, e.2.filter (fun c =>
            !((ConnectionManager.subscribersOf reg rid).filter
              (fun c => ConnectionManager.notExcluded exclude c &&
                sendFails c)).contains c)) else e))).Nodup := by
      rw [map_fst_update reg _ hfst]
      exact h.1
    cases hlu : ConnectionManager.lookupRoom (reg.map (fun e =>
        if e.1 == rid then
          (e.1, e.2.filter (fun c =>
            !((ConnectionManager.subscribersOf reg rid).filter
              (fun c => ConnectionManager.notExcluded exclude c &&
                sendFails c)).contains c)) else e)) rid with
    | none =>
      refine ⟨hnodup, ?_⟩
      intro e he
      obtain ⟨a, ha, hfa⟩ := List.mem_map.mp he
      by_cases hm : (a.1 == rid) = true
      · exfalso
        have hkeyabs := lookupRoom_none_key_absent _ rid hlu e he
        rw [← hfa, hfst a] at hkeyabs
        rw [hm] at hkeyabs
        simp at hkeyabs
      · rw [if_neg hm] at hfa
        rw [← hfa]
        exact h.2 a ha
    | some l' =>
      show ConnectionManager.RegistryWF
        (if l'.isEmpty = true then
          (reg.map (fun e =>
            if e.1 == rid then
              (e.1, e.2.filter (fun c =>
                !((ConnectionManager.subscribersOf reg rid).filter
                  (fun c => ConnectionManager.notExcluded exclude c &&
                    sendFails c)).contains c)) else e)).filter (fun e => e.1 != rid)
        else reg.map (fun e =>
            if e.1 == rid then
              (e.1, e.2.filter (fun c =>
                !((ConnectionManager.subscribersOf reg rid).filter
                  (fun c => ConnectionManager.notExcluded exclude c &&
                    sendFails c)).contains c)) else e))
      by_cases hemp : l'.isEmpty = true
      · rw [if_pos hemp]
        constructor
        · exact List.Nodup.sublist
            (List.Sublist.map Prod.fst (List.filter_sublist _)) hnodup
        · intro e he
          have he' := (List.mem_filter.mp he).1
          have hne := (List.mem_filter.mp he).2
          obtain ⟨a, ha, hfa⟩ := List.mem_map.mp he'
          by_cases hm : (a.1 == rid) = true
          · exfalso
            have h1 : e.1 = a.1 := by rw [← hfa, hfst a]
            have h2 : a.1 = rid := by simpa using hm
            rw [h1, h2] at hne
            simp at hne
          · rw [if_neg hm] at hfa
            rw [← hfa]
            exact h.2 a ha
      · rw [if_neg hemp]
        refine ⟨hnodup, ?_⟩
        intro e he
        obtain ⟨a, ha, hfa⟩ := List.mem_map.mp he
        by_cases hm : (a.1 == rid) = true
        · obtain ⟨e0, hfind, he02⟩ := Option.map_eq_some'.mp hlu
          have he0mem := List.mem_of_find?_eq_some hfind
          have he0key : e0.1 = rid := by
            simpa using List.find?_some (a := e0) hfind
          have hekey : e.1 = rid := by
            rw [← hfa, hfst a]
            simpa using hm
          have heq : e = e0 :=
            List.inj_on_of_nodup_map hnodup he he0mem
              (by rw [hekey, he0key])
          rw [heq, he02]
          intro hnil
          rw [hnil] at hemp
          exact hemp rfl
        · rw [if_neg hm] at hfa
          rw [← hfa]
          exact h.2 a ha

/-- `unsubscribe_all` preserves the registry's structural invariant. -/
theorem wf_unsubscribe_all (reg : Registry) (c : ConnId)
    (rids : List RoomId) (h : ConnectionManager.RegistryWF reg) :
    ConnectionManager.RegistryWF
      (ConnectionManager.unsubscribe_all reg c rids) := by
  induction rids generalizing reg with
  | nil => exact h
  | cons r rs ih => exact ih _ (wf_unsubscribe reg c r h)

/-- Every registry operation preserves the structural invariant. -/
theorem wf_applyOp (reg : Registry) (op : ConnectionManager.RegOp)
    (h : ConnectionManager.RegistryWF reg) :
    ConnectionManager.RegistryWF (ConnectionManager.applyOp reg op) := by
  cases op with
  | sub c rid => exact wf_subscribe reg c rid h
  | unsub c rid => exact wf_unsubscribe reg c rid h
  | unsubAll c rids => exact wf_unsubscribe_all reg c rids h
  | bcast rid exclude sendFails =>
    exact wf_broadcast reg rid exclude sendFails h

/-- Any sequence of registry operations preserves the structural
invariant. -/
theorem wf_applyOps (reg : Registry) (ops : List ConnectionManager.RegOp)
    (h : ConnectionManager.RegistryWF reg) :
    ConnectionManager.RegistryWF (ConnectionManager.applyOps reg ops) := by
  induction ops generalizing reg with
  | nil => exact h
  | cons op ops ih => exact ih _ (wf_applyOp reg op h)

/-- `unsubscribe` of a connection that is not in the room's subscriber set
(including an absent room) leaves the registry unchanged. -/
theorem unsubscribe_not_subscribed_noop (reg : Registry) (c : ConnId)
    (rid : RoomId) (hwf : ConnectionManager.RegistryWF reg)
    (hns : ConnectionManager.connSubscribed reg c rid = false) :
    ConnectionManager.unsubscribe reg c rid = reg := by
  unfold ConnectionManager.unsubscribe
  cases hl : ConnectionManager.lookupRoom reg rid with
  | none => rfl
  | some l =>
    show (if (l.filter (fun x => x != c)).isEmpty = true then
        reg.filter (fun e => e.1 != rid)
      else reg.map (fun e => if e.1 == rid then
        (e.1, l.filter (fun x => x != c)) else e)) = reg
    have hcl : c ∉ l := by
      intro hmem
      unfold ConnectionManager.connSubscribed
        ConnectionManager.subscribersOf at hns
      rw [hl] at hns
      simp only [Option.getD_some] at hns
      have hct : l.contains c = true := List.elem_iff.mpr hmem
      rw [hct] at hns
      exact absurd hns (by simp)
    have hfilter : l.filter (fun x => x != c) = l := by
      rw [List.filter_eq_self]
      intro a ha
      have : a ≠ c := fun hac => hcl (hac ▸ ha)
      simpa using this
    rw [hfilter]
    obtain ⟨e0, hfind, he02⟩ := Option.map_eq_some'.mp (show
      (List.find? (fun e => e.1 == rid) reg).map (fun e => e.2) =
        some l from hl)
    have he0mem := List.mem_of_find?_eq_some hfind
    have he0key : e0.1 = rid := by
      simpa using List.find?_some (a := e0) hfind
    have hlne : l ≠ [] := by
      rw [← he02]
      exact hwf.2 e0 he0mem
    rw [if_neg (by simpa using hlne)]
    have hid : ∀ e ∈ reg, (if e.1 == rid then (e.1, l) else e) = e := by
      intro e he
      by_cases hm : (e.1 == rid) = true
      · rw [if_pos hm]
        have hekey : e.1 = rid := by simpa using hm
        have heq : e = e0 :=
          List.inj_on_of_nodup_map hwf.1 he he0mem (by rw [hekey, he0key])
        rw [heq, ← he02]
      · rw [if_neg hm]
    exact (List.map_congr_left hid).trans (List.map_id reg)

/-- C9: starting from the empty registry, after any sequence of subscribe,
unsubscribe, bulk-unsubscribe and broadcast operations (including
broadcast's eviction of failed connections), every room id present in the
room-to-subscribers mapping maps to a non-empty subscriber set; and
unsubscribing a connection that was never subscribed (or a room that is
absent) is a no-op, not an error. -/
theorem c9_registry_nonempty_and_unsubscribe_noop :
    (∀ ops : List ConnectionManager.RegOp,
      ∀ e ∈ ConnectionManager.applyOps [] ops, e.2 ≠ []) ∧
    (∀ (reg : Registry) (c : ConnId) (rid : RoomId),
      ConnectionManager.RegistryWF reg →
      ConnectionManager.connSubscribed reg c rid = false →
      ConnectionManager.unsubscribe reg c rid = reg) := by
  constructor
  · intro ops
    exact (wf_applyOps [] ops ⟨by simp, by simp⟩).2
  · intro reg c rid hwf hns
    exact unsubscribe_not_subscribed_noop reg c rid hwf hns

/-- Witness for C9 at concrete inputs: a short operation sequence leaves
only non-empty subscriber sets, and unsubscribing the never-subscribed
connection 9 from room 5 leaves the registry `[(5, [7])]` unchanged. -/
theorem c9_witness :
    (∀ e ∈ ConnectionManager.applyOps []
      [ConnectionManager.RegOp.sub 1 5, ConnectionManager.RegOp.sub 2 5,
       ConnectionManager.RegOp.unsub 1 5], e.2 ≠ []) ∧
    ConnectionManager.unsubscribe [(5, [7])] 9 5 = [(5, [7])] :=
  ⟨c9_registry_nonempty_and_unsubscribe_noop.1
    [ConnectionManager.RegOp.sub 1 5, ConnectionManager.RegOp.sub 2 5,
     ConnectionManager.RegOp.unsub 1 5],
   c9_registry_nonempty_and_unsubscribe_noop.2 [(5, [7])] 9 5
    ⟨by decide, by decide⟩ (by decide)⟩

-- ---------------------------------------------------------------------------
-- C6: create-or-get direct room is idempotent per unordered pair
-- ---------------------------------------------------------------------------

/-- Appending an element the predicate rejects does not change `find?`. -/
theorem find?_append_singleton_neg {α : Type} (p : α → Bool) (l : List α)
    (x : α) (h : p x = false) : (l ++ [x]).find? p = l.find? p := by
  rw [List.find?_append]
  have hx : List.find? p [x] = Option.none := by
    rw [List.find?_cons_of_neg _ (by simp [h])]
    rfl
  rw [hx]
  cases hf : l.find? p <;> rfl

/-- Pair-set comparison is symmetric in the two principals. -/
theorem participantSetIsPair_comm (db : DB) (rid : RoomId) (u v : UserId) :
    participantSetIsPair db rid u v = participantSetIsPair db rid v u := by
  unfold participantSetIsPair
  rw [Bool.eq_iff_iff]
  simp only [Bool.and_eq_true, List.all_eq_true, Bool.or_eq_true_iff,
    beq_iff_eq]
  constructor
  · rintro ⟨⟨hall, hu⟩, hv⟩
    exact ⟨⟨fun x hx => (hall x hx).symm, hv⟩, hu⟩
  · rintro ⟨⟨hall, hv⟩, hu⟩
    exact ⟨⟨fun x hx => (hall x hx).symm, hu⟩, hv⟩

/-- Extending the database with a fresh direct room and its two participant
rows does not affect the direct-pair match of any other room. -/
theorem matchesDirectPair_extend (db : DB) (a b u v : UserId)
    (newRoomId : RoomId) (now : Time) (rid : RoomId)
    (hne : rid ≠ newRoomId) :
    matchesDirectPair
      { db with
        rooms := db.rooms ++
          [{ id := newRoomId, chat_type := "direct",
             contact_id := Option.none, last_message_at := Option.none,
             created_at := now }],
        participants := db.participants ++
          [⟨newRoomId, a, 0⟩, ⟨newRoomId, b, 0⟩] } u v rid =
    matchesDirectPair db u v rid := by
  have hne' : newRoomId ≠ rid := Ne.symm hne
  have hroom : chat_room_crud.get_by_id
      { db with
        rooms := db.rooms ++
          [{ id := newRoomId, chat_type := "direct",
             contact_id := Option.none, last_message_at := Option.none,
             created_at := now }],
        participants := db.participants ++
          [⟨newRoomId, a, 0⟩, ⟨newRoomId, b, 0⟩] } rid =
      chat_room_crud.get_by_id db rid := by
    unfold chat_room_crud.get_by_id
    exact find?_append_singleton_neg _ db.rooms _ (by simpa using hne')
  have hpart : chat_participant_crud.list_by_room
      { db with
        rooms := db.rooms ++
          [{ id := newRoomId, chat_type := "direct",
             contact_id := Option.none, last_message_at := Option.none,
             created_at := now }],
        participants := db.participants ++
          [⟨newRoomId, a, 0⟩, ⟨newRoomId, b, 0⟩] } rid =
      chat_participant_crud.list_by_room db rid := by
    unfold chat_participant_crud.list_by_room
    show (db.participants ++
      [(⟨newRoomId, a, 0⟩ : ChatParticipant), ⟨newRoomId, b, 0⟩]).filter
        (fun p => p.room_id == rid) = _
    rw [List.filter_append]
    rw [show ([(⟨newRoomId, a, 0⟩ : ChatParticipant),
        ⟨newRoomId, b, 0⟩].filter (fun p => p.room_id == rid)) = [] from by
      simp [hne']]
    simp
  unfold matchesDirectPair
  rw [hroom]
  cases hr : chat_room_crud.get_by_id db rid with
  | none => rfl
  | some room =>
    have hpairs : participantSetIsPair
        { db with
          rooms := db.rooms ++
            [{ id := newRoomId, chat_type := "direct",
               contact_id := Option.none, last_message_at := Option.none,
               created_at := now }],
          participants := db.participants ++
            [⟨newRoomId, a, 0⟩, ⟨newRoomId, b, 0⟩] } rid u v =
        participantSetIsPair db rid u v := by
      unfold participantSetIsPair
      rw [hpart]
    exact congrArg (fun z => room.chat_type == "direct" && z) hpairs

/-- `create_or_get_room_direct` returns an existing room found by the
participant-set scan, without modifying the state. -/
theorem create_or_get_room_direct_finds (db : DB) (u v : UserId)
    (nid : RoomId) (t : Time) (rid0 : RoomId)
    (hvu : (v == u) = false)
    (hv : db.users.contains v = true)
    (hfind : (myRoomIds db u).find? (matchesDirectPair db u v) = some rid0) :
    create_or_get_room_direct db u v nid t = (db, .ok rid0) := by
  unfold create_or_get_room_direct
  rw [if_neg (by simp [hvu]), if_neg (by rw [hv]; simp), hfind]

/-- `create_or_get_room_direct` creates the room and the two participant
rows when the scan finds no matching room. -/
theorem create_or_get_room_direct_creates (db : DB) (u v : UserId)
    (newRoomId : RoomId) (now : Time)
    (hvu : (v == u) = false)
    (hv : db.users.contains v = true)
    (hfind : (myRoomIds db u).find? (matchesDirectPair db u v) =
      Option.none) :
    create_or_get_room_direct db u v newRoomId now =
      ({ db with
         rooms := db.rooms ++
           [{ id := newRoomId, chat_type := "direct",
              contact_id := Option.none, last_message_at := Option.none,
              created_at := now }],
         participants := db.participants ++
           [⟨newRoomId, u, 0⟩, ⟨newRoomId, v, 0⟩] }, .ok newRoomId) := by
  unfold create_or_get_room_direct
  rw [if_neg (by simp [hvu]), if_neg (by rw [hv]; simp), hfind]

/-- The direct-pair match is symmetric in the two principals. -/
theorem matchesDirectPair_comm (db : DB) (u v : UserId) :
    ∀ x, matchesDirectPair db u v x = matchesDirectPair db v u x := by
  intro x
  unfold matchesDirectPair
  cases hr : chat_room_crud.get_by_id db x with
  | none => rfl
  | some room =>
    exact congrArg (fun z => room.chat_type == "direct" && z)
      (participantSetIsPair_comm db x u v)

/-- C6: for distinct existing principals with no shared direct room, the
first create-or-get call creates one new room with exactly the two
participant rows (caller first, each with unread count 0) and returns the
new room's id; any later call for the same unordered pair — issued by
either principal, with any fresh id on hand — returns the same room id and
leaves the state unchanged. -/
theorem c6_create_or_get_direct_room_idempotent (db : DB) (a b : UserId)
    (newRoomId : RoomId) (now : Time)
    (hab : a ≠ b)
    (hau : db.users.contains a = true)
    (hbu : db.users.contains b = true)
    (hnos : ∀ rid, matchesDirectPair db a b rid = false)
    (hfr : ∀ r ∈ db.rooms, r.id ≠ newRoomId)
    (hfp : ∀ p ∈ db.participants, p.room_id ≠ newRoomId) :
    (create_or_get_room_direct db a b newRoomId now).2 = .ok newRoomId ∧
    (create_or_get_room_direct db a b newRoomId now).1.rooms.length =
      db.rooms.length + 1 ∧
    chat_participant_crud.list_by_room
      (create_or_get_room_direct db a b newRoomId now).1 newRoomId =
      [⟨newRoomId, a, 0⟩, ⟨newRoomId, b, 0⟩] ∧
    (∀ (nid : RoomId) (t : Time),
      create_or_get_room_direct
          (create_or_get_room_direct db a b newRoomId now).1 a b nid t =
        ((create_or_get_room_direct db a b newRoomId now).1,
         .ok newRoomId)) ∧
    (∀ (nid : RoomId) (t : Time),
      create_or_get_room_direct
          (create_or_get_room_direct db a b newRoomId now).1 b a nid t =
        ((create_or_get_room_direct db a b newRoomId now).1,
         .ok newRoomId)) := by
  have hba : (b == a) = false := by simpa using Ne.symm hab
  have hab' : (a == b) = false := by simpa using hab
  have h1 : create_or_get_room_direct db a b newRoomId now =
      ({ db with
         rooms := db.rooms ++
           [{ id := newRoomId, chat_type := "direct",
              contact_id := Option.none, last_message_at := Option.none,
              created_at := now }],
         participants := db.participants ++
           [⟨newRoomId, a, 0⟩, ⟨newRoomId, b, 0⟩] }, .ok newRoomId) :=
    create_or_get_room_direct_creates db a b newRoomId now hba hbu
      (List.find?_eq_none.mpr (fun x _ => by rw [hnos x]; simp))
  rw [h1]
  have hlistnew : chat_participant_crud.list_by_room
      { db with
        rooms := db.rooms ++
          [{ id := newRoomId, chat_type := "direct",
             contact_id := Option.none, last_message_at := Option.none,
             created_at := now }],
        participants := db.participants ++
          [⟨newRoomId, a, 0⟩, ⟨newRoomId, b, 0⟩] } newRoomId =
      [⟨newRoomId, a, 0⟩, ⟨newRoomId, b, 0⟩] := by
    unfold chat_participant_crud.list_by_room
    show (db.participants ++
      [(⟨newRoomId, a, 0⟩ : ChatParticipant),
       ⟨newRoomId, b, 0⟩]).filter (fun p => p.room_id == newRoomId) = _
    rw [List.filter_append, List.filter_eq_nil_iff.mpr (fun p hp => by
      simpa using hfp p hp)]
    simp
  have hgetnew : chat_room_crud.get_by_id
      { db with
        rooms := db.rooms ++
          [{ id := newRoomId, chat_type := "direct",
             contact_id := Option.none, last_message_at := Option.none,
             created_at := now }],
        participants := db.participants ++
          [⟨newRoomId, a, 0⟩, ⟨newRoomId, b, 0⟩] } newRoomId =
      some { id := newRoomId, chat_type := "direct",
             contact_id := Option.none, last_message_at := Option.none,
             created_at := now } := by
    unfold chat_room_crud.get_by_id
    show (db.rooms ++
      [({ id := newRoomId, chat_type := "direct",
          contact_id := Option.none, last_message_at := Option.none,
          created_at := now } : ChatRoom)]).find?
        (fun r => r.id == newRoomId) = _
    rw [List.find?_append, List.find?_eq_none.mpr (fun r hr => by
      simpa using hfr r hr)]
    rw [show Option.none.or (List.find? (fun r => r.id == newRoomId)
      [({ id := newRoomId, chat_type := "direct",
          contact_id := Option.none, last_message_at := Option.none,
          created_at := now } : ChatRoom)]) = List.find?
        (fun r => r.id == newRoomId)
      [({ id := newRoomId, chat_type := "direct",
          contact_id := Option.none, last_message_at := Option.none,
          created_at := now } : ChatRoom)] from rfl]
    rw [List.find?_cons_of_pos _ (by simp)]
  refine ⟨rfl, by simp, hlistnew, ?_, ?_⟩
  · intro nid t
    apply create_or_get_room_direct_finds _ a b nid t newRoomId hba
      (by simpa using hbu)
    rw [show myRoomIds
        { db with
          rooms := db.rooms ++
            [{ id := newRoomId, chat_type := "direct",
               contact_id := Option.none, last_message_at := Option.none,
               created_at := now }],
          participants := db.participants ++
            [⟨newRoomId, a, 0⟩, ⟨newRoomId, b, 0⟩] } a =
        myRoomIds db a ++ [newRoomId] from by
      unfold myRoomIds
      show ((db.participants ++
        [(⟨newRoomId, a, 0⟩ : ChatParticipant),
         ⟨newRoomId, b, 0⟩]).filter (fun p => p.user_id == a)).map _ = _
      rw [List.filter_append, show
        ([(⟨newRoomId, a, 0⟩ : ChatParticipant),
          ⟨newRoomId, b, 0⟩].filter (fun p => p.user_id == a)) =
        [⟨newRoomId, a, 0⟩] from by simp [hba]]
      rw [List.map_append]
      rfl]
    rw [List.find?_append, List.find?_eq_none.mpr (fun x hx => by
      have hxne : x ≠ newRoomId := by
        obtain ⟨p, hp, hpx⟩ := List.mem_map.mp hx
        exact fun hcon =>
          (hfp p (List.mem_filter.mp hp).1) (by rw [hpx, hcon])
      rw [matchesDirectPair_extend db a b a b newRoomId now x hxne,
        hnos x]
      simp)]
    show List.find? _ [newRoomId] = _
    rw [List.find?_cons_of_pos _ (by
      unfold matchesDirectPair
      rw [hgetnew]
      show ((("direct" : String) == "direct") && participantSetIsPair _
        newRoomId a b) = true
      rw [show (("direct" : String) == "direct") = true from rfl,
        Bool.true_and]
      unfold participantSetIsPair
      rw [hlistnew]
      simp)]
  · intro nid t
    apply create_or_get_room_direct_finds _ b a nid t newRoomId hab'
      (by simpa using hau)
    rw [show myRoomIds
        { db with
          rooms := db.rooms ++
            [{ id := newRoomId, chat_type := "direct",
               contact_id := Option.none, last_message_at := Option.none,
               created_at := now }],
          participants := db.participants ++
            [⟨newRoomId, a, 0⟩, ⟨newRoomId, b, 0⟩] } b =
        myRoomIds db b ++ [newRoomId] from by
      unfold myRoomIds
      show ((db.participants ++
        [(⟨newRoomId, a, 0⟩ : ChatParticipant),
         ⟨newRoomId, b, 0⟩]).filter (fun p => p.user_id == b)).map _ = _
      rw [List.filter_append, show
        ([(⟨newRoomId, a, 0⟩ : ChatParticipant),
          ⟨newRoomId, b, 0⟩].filter (fun p => p.user_id == b)) =
        [⟨newRoomId, b, 0⟩] from by simp [hab']]
      rw [List.map_append]
      rfl]
    rw [List.find?_append, List.find?_eq_none.mpr (fun x hx => by
      have hxne : x ≠ newRoomId := by
        obtain ⟨p, hp, hpx⟩ := List.mem_map.mp hx
        exact fun hcon =>
          (hfp p (List.mem_filter.mp hp).1) (by rw [hpx, hcon])
      rw [matchesDirectPair_extend db a b b a newRoomId now x hxne,
        matchesDirectPair_comm db b a x, hnos x]
      simp)]
    show List.find? _ [newRoomId] = _
    rw [List.find?_cons_of_pos _ (by
      unfold matchesDirectPair
      rw [hgetnew]
      show ((("direct" : String) == "direct") && participantSetIsPair _
        newRoomId b a) = true
      rw [show (("direct" : String) == "direct") = true from rfl,
        Bool.true_and]
      unfold participantSetIsPair
      rw [hlistnew]
      simp)]

/-- Concrete state for the C6 witness: two users, no rooms at all. -/
def dbC6 : DB :=
  { rooms := [], participants := [], messages := [], users := [1, 2] }

/-- Witness for C6 at a concrete input: user 1 creates a direct room with
user 2 (fresh id 30); the call returns id 30, and a second call by user 2
for the same pair (fresh id 31 on hand) returns the same id 30 without
changing the state. -/
theorem c6_witness :
    (create_or_get_room_direct dbC6 1 2 30 7).2 = .ok 30 ∧
    create_or_get_room_direct
        (create_or_get_room_direct dbC6 1 2 30 7).1 2 1 31 8 =
      ((create_or_get_room_direct dbC6 1 2 30 7).1, .ok 30) :=
  ⟨(c6_create_or_get_direct_room_idempotent dbC6 1 2 30 7 (by decide)
      (by decide) (by decide) (fun _ => rfl) (by decide) (by decide)).1,
   (c6_create_or_get_direct_room_idempotent dbC6 1 2 30 7 (by decide)
      (by decide) (by decide) (fun _ => rfl) (by decide) (by decide)).2.2.2.2
     31 8⟩
